import Mathlib

/-!
Verification of the MQTT test harness (utils/mqtt_test.py): shallow embedding
of the shared actuator store, topic router, auto-publisher schedule and the
operator command loop, with theorems for the specified properties.
-/

set_option maxHeartbeats 1000000

namespace MqttTest

/-! ## Shared Actuator Store

Embeds the global `actuator_values` dict.  A write (`actuator_values[topic] =
value`) is modelled as prepending the pair; a read
(`actuator_values.get(topic, "0")`) finds the most recent write, defaulting to
`"0"` exactly as at the call site in `auto_publisher`. -/

abbrev Store := List (String × String)

def store_set (s : Store) (t v : String) : Store := (t, v) :: s

def store_get (s : Store) (t : String) : String :=
  match s.find? (fun kv => kv.1 == t) with
  | some kv => kv.2
  | none => "0"

def apply_writes (s : Store) (ws : List (String × String)) : Store :=
  ws.foldl (fun acc w => store_set acc w.1 w.2) s

theorem store_get_set_self (s : Store) (t v : String) :
    store_get (store_set s t v) t = v := by
  simp [store_set, store_get]

theorem store_get_set_other (s : Store) (t t2 v : String) (h : t2 ≠ t) :
    store_get (store_set s t2 v) t = store_get s t := by
  have hbeq : (t2 == t) = false := by simpa using h
  simp [store_set, store_get, List.find?, hbeq]

theorem store_get_apply_writes_unset (s : Store) (ws : List (String × String))
    (t : String) (h : ∀ w ∈ ws, w.1 ≠ t) :
    store_get (apply_writes s ws) t = store_get s t := by
  induction ws generalizing s with
  | nil => rfl
  | cons w ws ih =>
    have hw : w.1 ≠ t := h w (List.mem_cons_self w ws)
    have hrest : ∀ x ∈ ws, x.1 ≠ t := fun x hx => h x (List.mem_cons_of_mem w hx)
    calc store_get (apply_writes (store_set s w.1 w.2) ws) t
        = store_get (store_set s w.1 w.2) t := ih _ hrest
      _ = store_get s t := store_get_set_other s t w.1 w.2 hw

/-! ## Topic Router

Embeds `get_topic_prefix` (the `mode_map` dict with the `mode.lower()`
fallback) and the f-string topic composition used throughout the script. -/

def mode_map : List (String × String) :=
  [("DS18B20", "ds18b20"),
   ("THERMOCOUPLE", "thermocouple"),
   ("FAN", "fan"),
   ("OUTPUT_DIGITAL", "digital_output"),
   ("PWM", "pwm"),
   ("INPUT_DIGITAL", "digital_input"),
   ("INPUT_ANALOG", "analog_input"),
   ("OUTPUT_ANALOG", "analog_output"),
   ("DHT22_SENSOR", "dht22"),
   ("YL_69_SENSOR", "yl69")]

/-- ASCII lower-casing of a string, character by character; embeds the
`mode.lower()` fallback of `get_topic_prefix`. -/
def lower (s : String) : String := ⟨s.data.map Char.toLower⟩

def get_topic_prefix (mode : String) : String :=
  match mode_map.find? (fun kv => kv.1 == mode) with
  | some kv => kv.2
  | none => lower mode

/-- Embeds the f-string pattern used for every topic in the script:
`/{client_id}/{prefix}/{name}/{suffix}`. -/
def compose_topic (cid pr n sfx : String) : String :=
  "/" ++ cid ++ "/" ++ pr ++ "/" ++ n ++ "/" ++ sfx

theorem get_topic_prefix_unknown (m : String) (h : ∀ kv ∈ mode_map, kv.1 ≠ m) :
    get_topic_prefix m = lower m := by
  unfold get_topic_prefix
  have hnone : mode_map.find? (fun kv => kv.1 == m) = none := by
    rw [List.find?_eq_none]
    intro kv hkv
    simpa using h kv hkv
  rw [hnone]

/-- Claim C3: the Topic Router prefix function is total over the known mode
enumeration (each known mode yields its mapped prefix), deterministic, and
falls back to the lower-cased mode name for every unrecognized mode, e.g.
`"CUSTOM_MODE"` maps to `"custom_mode"`; being a total Lean function over all
strings, it cannot fail or throw, and topic composition from the same
arguments is a fixed string. -/
theorem topic_prefix_total_spec (m : String) (hunknown : ∀ kv ∈ mode_map, kv.1 ≠ m) :
    (∀ kv ∈ mode_map, get_topic_prefix kv.1 = kv.2) ∧
    get_topic_prefix m = lower m ∧
    get_topic_prefix "CUSTOM_MODE" = "custom_mode" := by
  refine ⟨by decide, get_topic_prefix_unknown m hunknown, by decide⟩

/-- Witness for C3 at the unrecognized mode `"CUSTOM_MODE"`. -/
theorem topic_prefix_total_spec_witness :
    get_topic_prefix "CUSTOM_MODE" = lower "CUSTOM_MODE" ∧
    get_topic_prefix "CUSTOM_MODE" = "custom_mode" :=
  ⟨(topic_prefix_total_spec "CUSTOM_MODE" (by decide)).2.1,
   (topic_prefix_total_spec "CUSTOM_MODE" (by decide)).2.2⟩

/-- Claim C1: on the Shared Actuator Store, `get` after `set(t, v)` returns exactly
`v`; a topic never written reads as the default `"0"`; and a write to a
distinct topic never changes what `get` returns for `t` (no
cross-contamination between topics). -/
theorem store_set_get_spec (ws : List (String × String)) (t v : String) :
    store_get (store_set (apply_writes [] ws) t v) t = v ∧
    ((∀ w ∈ ws, w.1 ≠ t) → store_get (apply_writes [] ws) t = "0") ∧
    (∀ t2 v2, t2 ≠ t →
      store_get (store_set (apply_writes [] ws) t2 v2) t = store_get (apply_writes [] ws) t) := by
  refine ⟨store_get_set_self _ t v, fun h => ?_, fun t2 v2 h => store_get_set_other _ t t2 v2 h⟩
  rw [store_get_apply_writes_unset [] ws t h]
  rfl

/-- Witness for C1 on a store with one prior write to a different topic. -/
theorem store_set_get_spec_witness :
    store_get (store_set (apply_writes [] [("/d/fan/f1/set", "3")]) "/d/digital_output/r1/set" "7")
        "/d/digital_output/r1/set" = "7" ∧
    store_get (apply_writes [] [("/d/fan/f1/set", "3")]) "/d/digital_output/r1/set" = "0" :=
  ⟨(store_set_get_spec [("/d/fan/f1/set", "3")] "/d/digital_output/r1/set" "7").1,
   (store_set_get_spec [("/d/fan/f1/set", "3")] "/d/digital_output/r1/set" "7").2.1 (by decide)⟩

/-! ## Pin declarations and the auto-publisher schedule

Embeds the first loop of `auto_publisher`: for each pin whose mode is `FAN` or
`OUTPUT_DIGITAL` it seeds the shared store with `str(defaultState)` (default
`0` when the key is absent) and builds a schedule entry with
`interval = max(1, pollingInterval/1000 - 1)` (default 30000 ms) and
`last_sent = 0`.  Python float arithmetic on these values is modelled by exact
rational arithmetic. -/

structure Pin where
  mode : String
  name : String
  defaultState : Option Int
  pollingInterval : Option Nat
  deriving DecidableEq

def is_actuator (p : Pin) : Bool :=
  p.mode == "FAN" || p.mode == "OUTPUT_DIGITAL"

def set_topic (cid : String) (p : Pin) : String :=
  compose_topic cid ( get_topic_prefix p.mode) p.name "set"

def default_val (p : Pin) : String := toString (p.defaultState.getD 0)

def interval_sec (ms : ℕ) : ℚ := max 1 ((ms : ℚ) / 1000 - 1)

structure SchedEntry where
  topic : String
  interval : ℚ
  last_sent : ℚ

def sched_of (cid : String) (p : Pin) : SchedEntry :=
  { topic := set_topic cid p,
    interval := interval_sec (p.pollingInterval.getD 30000),
    last_sent := 0 }

def auto_publisher_init (cid : String) (pins : List Pin) (s : Store) :
    Store × List SchedEntry :=
  match pins with
  | [] => (s, [])
  | p :: rest =>
    if is_actuator p then
      let s1 := store_set s (set_topic cid p) (default_val p)
      let r := auto_publisher_init cid rest s1
      (r.1, sched_of cid p :: r.2)
    else auto_publisher_init cid rest s

theorem auto_publisher_init_mem (cid : String) (pins : List Pin) (s : Store)
    (p : Pin) (hp : p ∈ pins) (ha : is_actuator p = true) :
    sched_of cid p ∈ (auto_publisher_init cid pins s).2 := by
  induction pins generalizing s with
  | nil => cases hp
  | cons q rest ih =>
    rcases List.mem_cons.1 hp with hq | hmem
    · subst hq
      simp [auto_publisher_init, ha]
    · by_cases hq : is_actuator q = true
      · simp only [auto_publisher_init, hq, if_true]
        exact List.mem_cons_of_mem _ (ih _ hmem)
      · simp only [auto_publisher_init, hq, if_false]
        exact ih _ hmem

theorem auto_publisher_init_shape (cid : String) (pins : List Pin) (s : Store)
    (e : SchedEntry) (he : e ∈ (auto_publisher_init cid pins s).2) :
    ∃ p ∈ pins, is_actuator p = true ∧ e = sched_of cid p := by
  induction pins generalizing s with
  | nil => cases he
  | cons q rest ih =>
    by_cases hq : is_actuator q = true
    · simp only [auto_publisher_init, hq, if_true] at he
      rcases List.mem_cons.1 he with he1 | he2
      · exact ⟨q, List.mem_cons_self q rest, hq, he1⟩
      · rcases ih _ he2 with ⟨p, hp, hap, hep⟩
        exact ⟨p, List.mem_cons_of_mem _ hp, hap, hep⟩
    · simp only [auto_publisher_init, hq, if_false] at he
      rcases ih _ he with ⟨p, hp, hap, hep⟩
      exact ⟨p, List.mem_cons_of_mem _ hp, hap, hep⟩

/-- Claim C2: every actuator-capable pin gets a schedule entry whose interval is
`max(1, pollingInterval/1000 - 1)` seconds; in particular a 30000 ms polling
interval yields 29 seconds and a 500 ms polling interval hits the 1 second
floor. -/
theorem schedule_interval_spec (cid : String) (pins : List Pin) (p : Pin)
    (hp : p ∈ pins) (ha : is_actuator p = true) :
    (∃ e ∈ (auto_publisher_init cid pins []).2,
      e.topic = set_topic cid p ∧
      e.interval = max 1 ((p.pollingInterval.getD 30000 : ℚ) / 1000 - 1)) ∧
    interval_sec 30000 = 29 ∧ interval_sec 500 = 1 := by
  refine ⟨⟨sched_of cid p, auto_publisher_init_mem cid pins [] p hp ha, rfl, rfl⟩, ?_, ?_⟩
  · unfold interval_sec
    norm_num
  · unfold interval_sec
    norm_num

/-- Witness for C2 on a two-pin topology exercising both polling intervals. -/
theorem schedule_interval_spec_witness :
    (∃ e ∈ (auto_publisher_init "dev1"
        [⟨"FAN", "fan1", some 0, some 30000⟩, ⟨"OUTPUT_DIGITAL", "r1", some 1, some 500⟩] []).2,
      e.topic = set_topic "dev1" ⟨"OUTPUT_DIGITAL", "r1", some 1, some 500⟩ ∧
      e.interval = max 1 ((((⟨"OUTPUT_DIGITAL", "r1", some 1, some 500⟩ : Pin).pollingInterval.getD
        30000 : ℚ)) / 1000 - 1)) ∧
    interval_sec 30000 = 29 ∧ interval_sec 500 = 1 :=
  schedule_interval_spec "dev1"
    [⟨"FAN", "fan1", some 0, some 30000⟩, ⟨"OUTPUT_DIGITAL", "r1", some 1, some 500⟩]
    ⟨"OUTPUT_DIGITAL", "r1", some 1, some 500⟩ (by decide) (by decide)

/-- Claim C9: an actuator pin with no `pollingInterval` attribute is scheduled with
the 30000 ms default, so its interval is `max(1, 30 - 1) = 29` seconds. -/
theorem default_polling_spec (cid : String) (pins : List Pin) (p : Pin)
    (hp : p ∈ pins) (ha : is_actuator p = true) (hnone : p.pollingInterval = none) :
    ∃ e ∈ (auto_publisher_init cid pins []).2,
      e.topic = set_topic cid p ∧ e.interval = 29 := by
  refine ⟨sched_of cid p, auto_publisher_init_mem cid pins [] p hp ha, rfl, ?_⟩
  show interval_sec (p.pollingInterval.getD 30000) = 29
  rw [hnone]
  unfold interval_sec
  norm_num

/-- Witness for C9 on a pin that omits `pollingInterval`. -/
theorem default_polling_spec_witness :
    ∃ e ∈ (auto_publisher_init "dev1" [⟨"FAN", "fan1", some 2, none⟩] []).2,
      e.topic = set_topic "dev1" ⟨"FAN", "fan1", some 2, none⟩ ∧ e.interval = 29 :=
  default_polling_spec "dev1" [⟨"FAN", "fan1", some 2, none⟩]
    ⟨"FAN", "fan1", some 2, none⟩ (by decide) (by decide) (by decide)

/-! ## The auto-publisher scheduling pass and the event semantics

`tick_pubs` embeds one pass of the `while not stop_event.is_set()` loop body:
entries whose elapsed time `now - last_sent` meets their interval publish the
current store value and record `last_sent = now`.  `run` interleaves such
passes with manual-override store writes from the main thread, which is the
only interleaving the lock-protected store admits at the granularity of whole
`get`/`set` calls. -/

def tick_pubs (s : Store) (now : ℚ) :
    List SchedEntry → List (String × String) × List SchedEntry
  | [] => ([], [])
  | a :: rest =>
    let r := tick_pubs s now rest
    if now - a.last_sent ≥ a.interval then
      ((a.topic, store_get s a.topic) :: r.1, { a with last_sent := now } :: r.2)
    else (r.1, a :: r.2)

inductive Event where
  | tick (now : ℚ)
  | manual (topic value : String)

/-- True when the event is a manual-override write to topic `t`. -/
def writes_topic (t : String) : Event → Bool
  | Event.manual t2 _ => t2 == t
  | Event.tick _ => false

def run (s : Store) (acts : List SchedEntry) :
    List Event → Store × List SchedEntry × List (String × String)
  | [] => (s, acts, [])
  | Event.tick now :: rest =>
    let pass := tick_pubs s now acts
    let r := run s pass.2 rest
    (r.1, r.2.1, pass.1 ++ r.2.2)
  | Event.manual t v :: rest => run (store_set s t v) acts rest

theorem tick_pubs_val (s : Store) (now : ℚ) (acts : List SchedEntry) :
    ∀ pv ∈ (tick_pubs s now acts).1, pv.2 = store_get s pv.1 := by
  induction acts with
  | nil => intro pv h; cases h
  | cons a rest ih =>
    intro pv hpv
    by_cases hfire : now - a.last_sent ≥ a.interval
    · simp only [tick_pubs, hfire, if_true] at hpv
      rcases List.mem_cons.1 hpv with h1 | h2
      · subst h1; rfl
      · exact ih pv h2
    · simp only [tick_pubs, hfire, if_false] at hpv
      exact ih pv hpv

/-- Claim C4: once the Manual Override Channel has written `"42"` for a topic, every
scheduled publish the Auto-Publisher Loop emits on that topic carries `"42"`,
for as long as no further manual write targets that topic (scheduling passes
never write the store, so only another override can change the value). -/
theorem override_idempotent_spec (t : String) (s : Store) (acts : List SchedEntry)
    (evs : List Event) (h42 : store_get s t = "42")
    (hnw : ∀ e ∈ evs, writes_topic t e = false) :
    ∀ pv ∈ (run s acts evs).2.2, pv.1 = t → pv.2 = "42" := by
  induction evs generalizing s acts with
  | nil => intro pv h; cases h
  | cons e rest ih =>
    have hrest : ∀ x ∈ rest, writes_topic t x = false :=
      fun x hx => hnw x (List.mem_cons_of_mem e hx)
    cases e with
    | tick now =>
      intro pv hpv hpt
      simp only [run, List.mem_append] at hpv
      rcases hpv with h1 | h2
      · have := tick_pubs_val s now acts pv h1
        rw [this, hpt, h42]
      · exact ih s _ h42 hrest pv h2 hpt
    | manual t2 v =>
      have ht2 : t2 ≠ t := by
        have := hnw (Event.manual t2 v) (List.mem_cons_self _ rest)
        simpa [writes_topic] using this
      intro pv hpv hpt
      have h42s : store_get (store_set s t2 v) t = "42" := by
        rw [store_get_set_other s t t2 v ht2, h42]
      exact ih (store_set s t2 v) acts h42s hrest pv hpv hpt

/-- Witness for C4: after the override writes `"42"`, a scheduling pass, a
manual write to a different topic and another pass only ever emit `"42"` on
the overridden topic. -/
theorem override_idempotent_spec_witness :
    ((run (store_set [] "/d/fan/f1/set" "42")
        [⟨"/d/fan/f1/set", 29, 0⟩]
        [Event.tick 100, Event.manual "/d/digital_output/r1/set" "1", Event.tick 200]).2.2.all
      (fun pv => pv.1 != "/d/fan/f1/set" || pv.2 == "42")) = true := by
  have h := override_idempotent_spec "/d/fan/f1/set" (store_set [] "/d/fan/f1/set" "42")
    [⟨"/d/fan/f1/set", 29, 0⟩]
    [Event.tick 100, Event.manual "/d/digital_output/r1/set" "1", Event.tick 200]
    (by decide) (by decide)
  rw [List.all_eq_true]
  intro pv hpv
  by_cases hpt : pv.1 = "/d/fan/f1/set"
  · have hv := h pv hpv hpt
    simp [hpt, hv]
  · simp [hpt]

theorem auto_publisher_init_store_frame (cid : String) (pins : List Pin) (s : Store)
    (t : String) (h : ∀ q ∈ pins, is_actuator q = true → set_topic cid q ≠ t) :
    store_get (auto_publisher_init cid pins s).1 t = store_get s t := by
  induction pins generalizing s with
  | nil => rfl
  | cons q rest ih =>
    have hrest : ∀ x ∈ rest, is_actuator x = true → set_topic cid x ≠ t :=
      fun x hx => h x (List.mem_cons_of_mem q hx)
    by_cases hq : is_actuator q = true
    · have hne : set_topic cid q ≠ t := h q (List.mem_cons_self q rest) hq
      simp only [auto_publisher_init, hq, if_true]
      rw [ih _ hrest, store_get_set_other _ _ _ _ hne]
    · simp only [auto_publisher_init, hq, if_false]
      exact ih _ hrest

theorem auto_publisher_init_store_get (cid : String) (pins : List Pin) (s : Store)
    (p : Pin) (hp : p ∈ pins) (ha : is_actuator p = true)
    (hd : ∀ q ∈ pins, is_actuator q = true → set_topic cid q = set_topic cid p → q = p) :
    store_get (auto_publisher_init cid pins s).1 (set_topic cid p) = default_val p := by
  induction pins generalizing s with
  | nil => cases hp
  | cons q rest ih =>
    have hdrest : ∀ x ∈ rest, is_actuator x = true → set_topic cid x = set_topic cid p → x = p :=
      fun x hx => hd x (List.mem_cons_of_mem q hx)
    rcases List.mem_cons.1 hp with hq | hmem
    · subst hq
      simp only [auto_publisher_init, ha, if_true]
      by_cases hpr : p ∈ rest
      · exact ih _ hpr hdrest
      · have hframe : ∀ x ∈ rest, is_actuator x = true → set_topic cid x ≠ set_topic cid p := by
          intro x hx hax heq
          exact hpr (hdrest x hx hax heq ▸ hx)
        rw [auto_publisher_init_store_frame cid rest _ _ hframe]
        exact store_get_set_self _ _ _
    · by_cases hq : is_actuator q = true
      · simp only [auto_publisher_init, hq, if_true]
        exact ih _ hmem hdrest
      · simp only [auto_publisher_init, hq, if_false]
        exact ih _ hmem hdrest

theorem tick_pubs_all_fire (s : Store) (now : ℚ) (acts : List SchedEntry)
    (hlast : ∀ e ∈ acts, e.last_sent = 0) (hnow : ∀ e ∈ acts, e.interval ≤ now) :
    (tick_pubs s now acts).1 = acts.map (fun e => (e.topic, store_get s e.topic)) := by
  induction acts with
  | nil => rfl
  | cons a rest ih =>
    have ha0 : a.last_sent = 0 := hlast a (List.mem_cons_self a rest)
    have hfire : now - a.last_sent ≥ a.interval := by
      rw [ha0, sub_zero]
      exact hnow a (List.mem_cons_self a rest)
    simp only [tick_pubs, hfire, if_true, List.map]
    rw [ih (fun e he => hlast e (List.mem_cons_of_mem a he))
      (fun e he => hnow e (List.mem_cons_of_mem a he))]

/-- Claim C10: every schedule entry starts with `last_sent = 0`, so on the first
scheduling pass (at any wall-clock time at least every interval, which holds
for real `time.time()` values) every actuator fires: the pass publishes, for
every actuator pin, its set-topic paired with the seeded
`str(defaultState)` value from the store. -/
theorem first_pass_publish_spec (cid : String) (pins : List Pin) (now : ℚ)
    (hnow : ∀ p ∈ pins, interval_sec (p.pollingInterval.getD 30000) ≤ now)
    (hd : ∀ p ∈ pins, ∀ q ∈ pins, is_actuator p = true → is_actuator q = true →
      set_topic cid q = set_topic cid p → q = p) :
    (∀ e ∈ (auto_publisher_init cid pins []).2, e.last_sent = 0) ∧
    (tick_pubs (auto_publisher_init cid pins []).1 now (auto_publisher_init cid pins []).2).1
      = (auto_publisher_init cid pins []).2.map
          (fun e => (e.topic, store_get (auto_publisher_init cid pins []).1 e.topic)) ∧
    (∀ p ∈ pins, is_actuator p = true →
      (set_topic cid p, default_val p) ∈
        (tick_pubs (auto_publisher_init cid pins []).1 now (auto_publisher_init cid pins []).2).1) := by
  have hlast : ∀ e ∈ (auto_publisher_init cid pins []).2, e.last_sent = 0 := by
    intro e he
    rcases auto_publisher_init_shape cid pins [] e he with ⟨p, _, _, hep⟩
    rw [hep]; rfl
  have hint : ∀ e ∈ (auto_publisher_init cid pins []).2, e.interval ≤ now := by
    intro e he
    rcases auto_publisher_init_shape cid pins [] e he with ⟨p, hp, _, hep⟩
    rw [hep]
    exact hnow p hp
  have hfire := tick_pubs_all_fire (auto_publisher_init cid pins []).1 now
    (auto_publisher_init cid pins []).2 hlast hint
  refine ⟨hlast, hfire, ?_⟩
  intro p hp hap
  have hmem := auto_publisher_init_mem cid pins [] p hp hap
  have hval := auto_publisher_init_store_get cid pins [] p hp hap
    (fun q hq haq => hd p hp q hq hap haq)
  rw [hfire]
  have : (set_topic cid p, default_val p)
      = ((sched_of cid p).topic, store_get (auto_publisher_init cid pins []).1 (sched_of cid p).topic) := by
    show (set_topic cid p, default_val p)
      = (set_topic cid p, store_get (auto_publisher_init cid pins []).1 (set_topic cid p))
    rw [hval]
  rw [this]
  exact List.mem_map_of_mem _ hmem

/-- Witness for C10 on a one-actuator topology, taken at a time equal to the
actuator's interval so the time hypothesis holds by reflexivity. -/
theorem first_pass_publish_spec_witness :
    (∀ e ∈ (auto_publisher_init "dev1" [⟨"OUTPUT_DIGITAL", "relay1", some 0, some 5000⟩] []).2,
      e.last_sent = 0) ∧
    (tick_pubs (auto_publisher_init "dev1" [⟨"OUTPUT_DIGITAL", "relay1", some 0, some 5000⟩] []).1
        (interval_sec 5000)
        (auto_publisher_init "dev1" [⟨"OUTPUT_DIGITAL", "relay1", some 0, some 5000⟩] []).2).1
      = (auto_publisher_init "dev1" [⟨"OUTPUT_DIGITAL", "relay1", some 0, some 5000⟩] []).2.map
          (fun e => (e.topic,
            store_get (auto_publisher_init "dev1"
              [⟨"OUTPUT_DIGITAL", "relay1", some 0, some 5000⟩] []).1 e.topic)) ∧
    (∀ p ∈ [(⟨"OUTPUT_DIGITAL", "relay1", some 0, some 5000⟩ : Pin)], is_actuator p = true →
      (set_topic "dev1" p, default_val p) ∈
        (tick_pubs (auto_publisher_init "dev1"
            [⟨"OUTPUT_DIGITAL", "relay1", some 0, some 5000⟩] []).1 (interval_sec 5000)
          (auto_publisher_init "dev1" [⟨"OUTPUT_DIGITAL", "relay1", some 0, some 5000⟩] []).2).1) :=
  first_pass_publish_spec "dev1" [⟨"OUTPUT_DIGITAL", "relay1", some 0, some 5000⟩]
    (interval_sec 5000)
    (by
      intro p hp
      rw [List.mem_singleton] at hp
      subst hp
      exact le_refl _)
    (by
      intro p hp q hq _ _ _
      rw [List.mem_singleton] at hp hq
      rw [hp, hq])

/-! ## Connection/Subscription Controller

Embeds the success branch of `on_connect`: for each pin, `DS18B20` and
`THERMOCOUPLE` pins subscribe to their `/value` topic, `FAN` and
`OUTPUT_DIGITAL` pins to their `/state` topic, in topology order; no other
mode subscribes. -/

def on_connect_subs (cid : String) : List Pin → List String
  | [] => []
  | p :: rest =>
    if p.mode == "DS18B20" || p.mode == "THERMOCOUPLE" then
      compose_topic cid ( get_topic_prefix p.mode) p.name "value" :: on_connect_subs cid rest
    else if p.mode == "FAN" then
      compose_topic cid ( get_topic_prefix p.mode) p.name "state" :: on_connect_subs cid rest
    else if p.mode == "OUTPUT_DIGITAL" then
      compose_topic cid ( get_topic_prefix p.mode) p.name "state" :: on_connect_subs cid rest
    else on_connect_subs cid rest

theorem on_connect_subs_mem (cid : String) (pins : List Pin) (p : Pin)
    (hp : p ∈ pins) :
    ((p.mode = "DS18B20" ∨ p.mode = "THERMOCOUPLE") →
      compose_topic cid ( get_topic_prefix p.mode) p.name "value" ∈ on_connect_subs cid pins) ∧
    ((p.mode = "FAN" ∨ p.mode = "OUTPUT_DIGITAL") →
      compose_topic cid ( get_topic_prefix p.mode) p.name "state" ∈ on_connect_subs cid pins) := by
  induction pins with
  | nil => cases hp
  | cons q rest ih =>
    rcases List.mem_cons.1 hp with hq | hmem
    · subst hq
      constructor
      · intro hmode
        have hcond : (p.mode == "DS18B20" || p.mode == "THERMOCOUPLE") = true := by
          rcases hmode with h | h <;> simp [h]
        simp only [on_connect_subs, hcond, if_true]
        exact List.mem_cons_self _ _
      · intro hmode
        rcases hmode with h | h
        · have hc1 : (p.mode == "DS18B20" || p.mode == "THERMOCOUPLE") = false := by simp [h]
          have hc2 : (p.mode == "FAN") = true := by simp [h]
          simp only [on_connect_subs, hc1, hc2, if_true, if_false]
          exact List.mem_cons_self _ _
        · have hc1 : (p.mode == "DS18B20" || p.mode == "THERMOCOUPLE") = false := by simp [h]
          have hc2 : (p.mode == "FAN") = false := by simp [h]
          have hc3 : (p.mode == "OUTPUT_DIGITAL") = true := by simp [h]
          simp only [on_connect_subs, hc1, hc2, hc3, if_true, if_false]
          exact List.mem_cons_self _ _
    · have hrec := ih hmem
      constructor
      · intro hmode
        have := hrec.1 hmode
        unfold on_connect_subs
        split
        · exact List.mem_cons_of_mem _ this
        · split
          · exact List.mem_cons_of_mem _ this
          · split
            · exact List.mem_cons_of_mem _ this
            · exact this
      · intro hmode
        have := hrec.2 hmode
        unfold on_connect_subs
        split
        · exact List.mem_cons_of_mem _ this
        · split
          · exact List.mem_cons_of_mem _ this
          · split
            · exact List.mem_cons_of_mem _ this
            · exact this

theorem on_connect_subs_skip (cid : String) (q : Pin) (rest : List Pin)
    (h1 : q.mode ≠ "DS18B20") (h2 : q.mode ≠ "THERMOCOUPLE") (h3 : q.mode ≠ "FAN")
    (h4 : q.mode ≠ "OUTPUT_DIGITAL") :
    on_connect_subs cid (q :: rest) = on_connect_subs cid rest := by
  have hc1 : (q.mode == "DS18B20" || q.mode == "THERMOCOUPLE") = false := by simp [h1, h2]
  have hc2 : (q.mode == "FAN") = false := by simp [h3]
  have hc3 : (q.mode == "OUTPUT_DIGITAL") = false := by simp [h4]
  simp [on_connect_subs, hc1, hc2, hc3]

/-- Counterexample to C6 as stated: `DHT22_SENSOR` is one of the known sensor
modes of the mode map, yet on connection a topology holding a single
`DHT22_SENSOR` pin gets no subscription at all; in particular the pin's
router-derived `/value` topic is not subscribed, contradicting the claim that
every sensor-kind pin is subscribed. -/
theorem on_connect_sensor_missing_cex :
    ("DHT22_SENSOR", "dht22") ∈ mode_map ∧
    on_connect_subs "dev1" [⟨"DHT22_SENSOR", "dht1", none, none⟩] = [] ∧
    compose_topic "dev1" ( get_topic_prefix "DHT22_SENSOR") "dht1" "value"
      ∉ on_connect_subs "dev1" [⟨"DHT22_SENSOR", "dht1", none, none⟩] := by
  decide

/-- Claim C6 (amended): on successful connection, every `DS18B20` and
`THERMOCOUPLE` sensor pin has its router-derived `/value` topic subscribed and
every state-reporting `FAN` and `OUTPUT_DIGITAL` pin has its router-derived
`/state` topic subscribed; a pin of any other mode — including the sensor
modes `DHT22_SENSOR` and `YL_69_SENSOR` — contributes no subscription. -/
theorem on_connect_subscribe_amended (cid : String) (pins : List Pin) (p : Pin)
    (hp : p ∈ pins) :
    ((p.mode = "DS18B20" ∨ p.mode = "THERMOCOUPLE") →
      compose_topic cid ( get_topic_prefix p.mode) p.name "value" ∈ on_connect_subs cid pins) ∧
    ((p.mode = "FAN" ∨ p.mode = "OUTPUT_DIGITAL") →
      compose_topic cid ( get_topic_prefix p.mode) p.name "state" ∈ on_connect_subs cid pins) ∧
    (∀ q rest, q.mode ≠ "DS18B20" → q.mode ≠ "THERMOCOUPLE" → q.mode ≠ "FAN" →
      q.mode ≠ "OUTPUT_DIGITAL" →
      on_connect_subs cid (q :: rest) = on_connect_subs cid rest) :=
  ⟨(on_connect_subs_mem cid pins p hp).1, (on_connect_subs_mem cid pins p hp).2,
   fun q rest h1 h2 h3 h4 => on_connect_subs_skip cid q rest h1 h2 h3 h4⟩

/-- Witness for the amended C6 on a topology with one sensor and one actuator
pin, instantiating the no-subscription part at a `DHT22_SENSOR` pin. -/
theorem on_connect_subscribe_amended_witness :
    compose_topic "dev1" ( get_topic_prefix "DS18B20") "temp1" "value"
      ∈ on_connect_subs "dev1"
        [⟨"DS18B20", "temp1", none, none⟩, ⟨"FAN", "fan1", some 0, some 30000⟩] ∧
    compose_topic "dev1" ( get_topic_prefix "FAN") "fan1" "state"
      ∈ on_connect_subs "dev1"
        [⟨"DS18B20", "temp1", none, none⟩, ⟨"FAN", "fan1", some 0, some 30000⟩] ∧
    on_connect_subs "dev1" (⟨"DHT22_SENSOR", "dht1", none, none⟩ :: [])
      = on_connect_subs "dev1" [] :=
  ⟨(on_connect_subscribe_amended "dev1"
      [⟨"DS18B20", "temp1", none, none⟩, ⟨"FAN", "fan1", some 0, some 30000⟩]
      ⟨"DS18B20", "temp1", none, none⟩ (by decide)).1 (Or.inl rfl),
   (on_connect_subscribe_amended "dev1"
      [⟨"DS18B20", "temp1", none, none⟩, ⟨"FAN", "fan1", some 0, some 30000⟩]
      ⟨"FAN", "fan1", some 0, some 30000⟩ (by decide)).2.1 (Or.inl rfl),
   (on_connect_subscribe_amended "dev1"
      [⟨"DS18B20", "temp1", none, none⟩, ⟨"FAN", "fan1", some 0, some 30000⟩]
      ⟨"DS18B20", "temp1", none, none⟩ (by decide)).2.2
     ⟨"DHT22_SENSOR", "dht1", none, none⟩ [] (by decide) (by decide) (by decide) (by decide)⟩

/-! ## Operator command loop

Embeds one iteration of the interactive loop in `main`: the input line is
stripped, `"q"` (case-insensitively) quits, a line splitting into exactly two
whitespace-separated parts is parsed as `<index> <value>` (a `ValueError` from
`int()` prints a usage message), an in-range index writes the store under the
lock and then publishes, an out-of-range index prints a warning, and any other
line is silently ignored (`pass`).  The printed messages, the store write and
the publish call are recorded as an ordered effect list. -/

def py_strip (s : String) : String :=
  ⟨((s.data.dropWhile Char.isWhitespace).reverse.dropWhile Char.isWhitespace).reverse⟩

def split_ws_aux (p : Char → Bool) : List Char → List Char → List (List Char)
  | [], acc => [acc.reverse]
  | c :: rest, acc =>
    if p c then acc.reverse :: split_ws_aux p rest []
    else split_ws_aux p rest (c :: acc)

/-- Embeds Python `str.split()` with no argument: split on whitespace runs and
drop the empty pieces. -/
def split_ws (s : String) : List String :=
  ((split_ws_aux Char.isWhitespace s.data []).map fun l => (⟨l⟩ : String)).filter
    (fun x => x != "")

def digit_val (c : Char) : Nat := c.toNat - 48

def py_digits_aux : List Char → Nat → Option Nat
  | [], acc => some acc
  | '_' :: c :: rest, acc =>
    if c.isDigit then py_digits_aux rest (acc * 10 + digit_val c) else none
  | c :: rest, acc =>
    if c.isDigit then py_digits_aux rest (acc * 10 + digit_val c) else none

def py_digits : List Char → Option Nat
  | [] => none
  | c :: rest => if c.isDigit then py_digits_aux rest (digit_val c) else none

/-- Embeds Python `int()` on a whitespace-free token: an optional sign
followed by ASCII digits, with single underscores allowed between digits. -/
def py_int_of (s : String) : Option Int :=
  match s.data with
  | '+' :: rest => (py_digits rest).map (fun n => (n : Int))
  | '-' :: rest => (py_digits rest).map (fun n => -(n : Int))
  | l => (py_digits l).map (fun n => (n : Int))

structure ManualAct where
  name : String
  topic : String
  range : String
  deriving DecidableEq

instance : Inhabited ManualAct := ⟨⟨"", "", ""⟩⟩

/-- Embeds the `actuators_manual` list built in `main`. -/
def build_manual (cid : String) : List Pin → List ManualAct
  | [] => []
  | p :: rest =>
    if p.mode == "FAN" then
      ⟨p.name, compose_topic cid ( get_topic_prefix p.mode) p.name "set", "0-4"⟩
        :: build_manual cid rest
    else if p.mode == "OUTPUT_DIGITAL" then
      ⟨p.name, compose_topic cid ( get_topic_prefix p.mode) p.name "set", "0-1"⟩
        :: build_manual cid rest
    else build_manual cid rest

inductive Effect where
  | store_write (topic value : String)
  | publish (topic value : String)
  | report (msg : String)
  deriving DecidableEq

inductive CmdKind where
  | quit
  | valid
  | invalid_index
  | non_numeric
  | ignored
  deriving DecidableEq

def process_cmd (acts : List ManualAct) (raw : String) : List Effect × CmdKind :=
  let cmd := py_strip raw
  if lower cmd == "q" then ([], CmdKind.quit)
  else
    let parts := split_ws cmd
    if parts.length == 2 then
      match py_int_of (parts.getD 0 "") with
      | none => ([Effect.report "   ⚠️  Usage: <index> <value>"], CmdKind.non_numeric)
      | some idx =>
        let value := parts.getD 1 ""
        if 0 ≤ idx ∧ idx < (acts.length : Int) then
          let topic := (acts.getD idx.toNat default).topic
          ([Effect.store_write topic value, Effect.publish topic value,
            Effect.report ("   📤 Manual Publish: " ++ topic ++ " = " ++ value ++ " (will auto-republish)")], CmdKind.valid)
        else ([Effect.report "   ⚠️  Invalid index"], CmdKind.invalid_index)
    else ([], CmdKind.ignored)

def apply_effects (s : Store) (es : List Effect) : Store :=
  es.foldl (fun acc e =>
    match e with
    | Effect.store_write t v => store_set acc t v
    | _ => acc) s

def pubs_of (es : List Effect) : List (String × String) :=
  es.filterMap (fun e => match e with | Effect.publish t v => some (t, v) | _ => none)

def reports_of (es : List Effect) : List String :=
  es.filterMap (fun e => match e with | Effect.report m => some m | _ => none)

theorem process_cmd_cases (acts : List ManualAct) (raw : String) :
    ((process_cmd acts raw).2 = CmdKind.quit ∧ (process_cmd acts raw).1 = []) ∨
    ((process_cmd acts raw).2 = CmdKind.ignored ∧ (process_cmd acts raw).1 = []) ∨
    ((process_cmd acts raw).2 = CmdKind.non_numeric ∧
      (process_cmd acts raw).1 = [Effect.report "   ⚠️  Usage: <index> <value>"]) ∨
    ((process_cmd acts raw).2 = CmdKind.invalid_index ∧
      (process_cmd acts raw).1 = [Effect.report "   ⚠️  Invalid index"]) ∨
    (∃ t v, (process_cmd acts raw).2 = CmdKind.valid ∧
      (process_cmd acts raw).1 = [Effect.store_write t v, Effect.publish t v,
        Effect.report ("   📤 Manual Publish: " ++ t ++ " = " ++ v ++ " (will auto-republish)")]) := by
  unfold process_cmd
  dsimp only
  split
  · exact Or.inl ⟨rfl, rfl⟩
  · split
    · split
      · exact Or.inr (Or.inr (Or.inl ⟨rfl, rfl⟩))
      · split
        · exact Or.inr (Or.inr (Or.inr (Or.inr ⟨_, _, rfl, rfl⟩)))
        · exact Or.inr (Or.inr (Or.inr (Or.inl ⟨rfl, rfl⟩)))
    · exact Or.inr (Or.inl ⟨rfl, rfl⟩)

/-- Claim C5 (amended): an operator command with an out-of-range index, a
non-numeric index, or any other shape than two whitespace-separated tokens is
discarded: the Shared Actuator Store is unchanged and nothing is published.
An out-of-range or non-numeric index is reported to the operator, while input
of the wrong arity is silently ignored (the `pass` branch prints nothing).
The handler is a total function, so the command and publisher loops
continue. -/
theorem invalid_command_discard_amended (acts : List ManualAct) (s : Store) (raw : String)
    (h : (process_cmd acts raw).2 = CmdKind.ignored ∨
      (process_cmd acts raw).2 = CmdKind.non_numeric ∨
      (process_cmd acts raw).2 = CmdKind.invalid_index) :
    apply_effects s (process_cmd acts raw).1 = s ∧
    pubs_of (process_cmd acts raw).1 = [] ∧
    ((process_cmd acts raw).2 = CmdKind.non_numeric ∨
        (process_cmd acts raw).2 = CmdKind.invalid_index →
      reports_of (process_cmd acts raw).1 ≠ []) ∧
    ((process_cmd acts raw).2 = CmdKind.ignored →
      reports_of (process_cmd acts raw).1 = []) := by
  rcases process_cmd_cases acts raw with ⟨hk, he⟩ | ⟨hk, he⟩ | ⟨hk, he⟩ | ⟨hk, he⟩ | ⟨t, v, hk, he⟩
  · rcases h with h | h | h <;> rw [hk] at h <;> cases h
  · rw [he, hk]
    refine ⟨rfl, rfl, fun hcontra => ?_, fun _ => rfl⟩
    rcases hcontra with h2 | h2 <;> cases h2
  · rw [he, hk]
    exact ⟨rfl, rfl, fun _ => by simp [reports_of], fun hcontra => by cases hcontra⟩
  · rw [he, hk]
    exact ⟨rfl, rfl, fun _ => by simp [reports_of], fun hcontra => by cases hcontra⟩
  · rcases h with h | h | h <;> rw [hk] at h <;> cases h

/-- Counterexample to C5 as stated: the malformed command `"1 2 3"` (three
tokens, so not of the form `<index> <value>`) is classified as ignored and
produces no operator report at all, contradicting the claim that every
malformed command is reported. -/
theorem invalid_command_report_cex :
    (process_cmd (build_manual "dev1" [⟨"FAN", "fan1", some 0, some 30000⟩]) "1 2 3").2
        = CmdKind.ignored ∧
    ¬ (reports_of
        (process_cmd (build_manual "dev1" [⟨"FAN", "fan1", some 0, some 30000⟩]) "1 2 3").1
      ≠ []) := by
  decide

/-- Witness for the amended C5 at the non-numeric command `"abc 5"`. -/
theorem invalid_command_discard_amended_witness :
    apply_effects []
        (process_cmd (build_manual "dev1" [⟨"FAN", "fan1", some 0, some 30000⟩]) "abc 5").1 = [] ∧
    pubs_of (process_cmd (build_manual "dev1" [⟨"FAN", "fan1", some 0, some 30000⟩]) "abc 5").1
      = [] ∧
    reports_of (process_cmd (build_manual "dev1" [⟨"FAN", "fan1", some 0, some 30000⟩]) "abc 5").1
      ≠ [] :=
  ⟨(invalid_command_discard_amended (build_manual "dev1" [⟨"FAN", "fan1", some 0, some 30000⟩])
      [] "abc 5" (Or.inr (Or.inl (by decide)))).1,
   (invalid_command_discard_amended (build_manual "dev1" [⟨"FAN", "fan1", some 0, some 30000⟩])
      [] "abc 5" (Or.inr (Or.inl (by decide)))).2.1,
   (invalid_command_discard_amended (build_manual "dev1" [⟨"FAN", "fan1", some 0, some 30000⟩])
      [] "abc 5" (Or.inr (Or.inl (by decide)))).2.2.1 (Or.inl (by decide))⟩

/-- Claim C7: a valid manual-override command emits its effects in the order
store-write then publish, nothing after the write touches the store, and the
resulting store holds the value no matter what becomes of the publish call
(the store contents are a function of the store-write effects alone), so the
next auto-tick re-attempts delivery of that value. -/
theorem manual_write_before_publish_spec (acts : List ManualAct) (s : Store) (raw : String)
    (h : (process_cmd acts raw).2 = CmdKind.valid) :
    ∃ t v rest2,
      (process_cmd acts raw).1 = Effect.store_write t v :: Effect.publish t v :: rest2 ∧
      (∀ e ∈ rest2, ∀ t2 v2, e ≠ Effect.store_write t2 v2) ∧
      apply_effects s (process_cmd acts raw).1 = store_set s t v ∧
      store_get (apply_effects s (process_cmd acts raw).1) t = v := by
  rcases process_cmd_cases acts raw with ⟨hk, he⟩ | ⟨hk, he⟩ | ⟨hk, he⟩ | ⟨hk, he⟩ | ⟨t, v, hk, he⟩
  · rw [hk] at h; cases h
  · rw [hk] at h; cases h
  · rw [hk] at h; cases h
  · rw [hk] at h; cases h
  · refine ⟨t, v, [Effect.report ("   📤 Manual Publish: " ++ t ++ " = " ++ v ++ " (will auto-republish)")], he, ?_, ?_, ?_⟩
    · intro e hme t2 v2
      rw [List.mem_singleton] at hme
      subst hme
      intro hcontra
      cases hcontra
    · rw [he]; rfl
    · rw [he]
      exact store_get_set_self s t v

/-- Witness for C7 at the valid command `"0 42"` against a one-actuator
manual-control list. -/
theorem manual_write_before_publish_spec_witness :
    ∃ t v rest2,
      (process_cmd (build_manual "dev1" [⟨"FAN", "fan1", some 0, some 30000⟩]) "0 42").1
        = Effect.store_write t v :: Effect.publish t v :: rest2 ∧
      (∀ e ∈ rest2, ∀ t2 v2, e ≠ Effect.store_write t2 v2) ∧
      apply_effects []
        (process_cmd (build_manual "dev1" [⟨"FAN", "fan1", some 0, some 30000⟩]) "0 42").1
        = store_set [] t v ∧
      store_get (apply_effects []
        (process_cmd (build_manual "dev1" [⟨"FAN", "fan1", some 0, some 30000⟩]) "0 42").1) t
        = v :=
  manual_write_before_publish_spec (build_manual "dev1" [⟨"FAN", "fan1", some 0, some 30000⟩])
    [] "0 42" (by decide)

theorem compose_topic_data (cid pr n sfx : String) :
    (compose_topic cid pr n sfx).data
      = '/' :: (cid.data ++ '/' :: (pr.data ++ '/' :: (n.data ++ '/' :: sfx.data))) := by
  simp [compose_topic, String.data_append]

theorem compose_topic_parts_inj (cid pr1 pr2 n1 n2 sfx : String)
    (h : compose_topic cid pr1 n1 sfx = compose_topic cid pr2 n2 sfx) :
    pr1.data ++ '/' :: (n1.data ++ '/' :: sfx.data)
      = pr2.data ++ '/' :: (n2.data ++ '/' :: sfx.data) := by
  have hd := congrArg String.data h
  rw [compose_topic_data, compose_topic_data] at hd
  injection hd with hh ht
  have hmid := List.append_cancel_left ht
  injection hmid with hh2 ht2

theorem compose_topic_same_pr_inj (cid pr n1 n2 sfx : String)
    (h : compose_topic cid pr n1 sfx = compose_topic cid pr n2 sfx) : n1 = n2 := by
  have hp := compose_topic_parts_inj cid pr pr n1 n2 sfx h
  have hmid := List.append_cancel_left hp
  injection hmid with hh ht
  exact String.ext (List.append_cancel_right ht)

theorem compose_topic_fan_do_ne (cid n1 n2 : String) :
    compose_topic cid "fan" n1 "set" ≠ compose_topic cid "digital_output" n2 "set" := by
  intro h
  have hp := compose_topic_parts_inj cid "fan" "digital_output" n1 n2 "set" h
  have e1 : ("fan" : String).data = ['f', 'a', 'n'] := rfl
  have e2 : ("digital_output" : String).data
      = ['d', 'i', 'g', 'i', 't', 'a', 'l', '_', 'o', 'u', 't', 'p', 'u', 't'] := rfl
  rw [e1, e2] at hp
  simp only [List.cons_append, List.nil_append] at hp
  injection hp with hc _
  exact absurd hc (by decide)

/-- Claim C8: in a topology whose pins carry distinct `(mode, name)` pairs, two
distinct actuator-capable pins never compose the same set-topic: the map from
actuator pins to set-topics is injective. -/
theorem set_topic_injective_spec (cid : String) (p1 p2 : Pin)
    (h1 : is_actuator p1 = true) (h2 : is_actuator p2 = true)
    (hne : (p1.mode, p1.name) ≠ (p2.mode, p2.name)) :
    set_topic cid p1 ≠ set_topic cid p2 := by
  intro heq
  have hm1 : p1.mode = "FAN" ∨ p1.mode = "OUTPUT_DIGITAL" := by
    simpa [is_actuator] using h1
  have hm2 : p2.mode = "FAN" ∨ p2.mode = "OUTPUT_DIGITAL" := by
    simpa [is_actuator] using h2
  have hfan : get_topic_prefix "FAN" = "fan" := by decide
  have hdo : get_topic_prefix "OUTPUT_DIGITAL" = "digital_output" := by decide
  unfold set_topic at heq
  rcases hm1 with hA | hA <;> rcases hm2 with hB | hB
  · rw [hA, hB, hfan] at heq
    have hn : p1.name = p2.name := compose_topic_same_pr_inj cid "fan" p1.name p2.name "set" heq
    exact hne (by rw [hA, hB, hn])
  · rw [hA, hB, hfan, hdo] at heq
    exact compose_topic_fan_do_ne cid p1.name p2.name heq
  · rw [hA, hB, hfan, hdo] at heq
    exact compose_topic_fan_do_ne cid p2.name p1.name heq.symm
  · rw [hA, hB, hdo] at heq
    have hn : p1.name = p2.name :=
      compose_topic_same_pr_inj cid "digital_output" p1.name p2.name "set" heq
    exact hne (by rw [hA, hB, hn])

/-- Witness for C8: a fan and a relay with distinct declarations get distinct
set-topics. -/
theorem set_topic_injective_spec_witness :
    set_topic "dev1" ⟨"FAN", "fan1", some 0, some 30000⟩
      ≠ set_topic "dev1" ⟨"OUTPUT_DIGITAL", "fan1", some 0, some 30000⟩ :=
  set_topic_injective_spec "dev1" ⟨"FAN", "fan1", some 0, some 30000⟩
    ⟨"OUTPUT_DIGITAL", "fan1", some 0, some 30000⟩ (by decide) (by decide) (by decide)

end MqttTest
